import Mathlib

/-!
Shallow embedding of the QuickBooks skill's credential lifecycle and
paginated query engine (`scripts/lib/auth.ts` and the QuickBooks API
client module).

Conventions of the embedding:

* Timestamps are integers counting milliseconds since the Unix epoch
  (the value `Date.getTime()` returns).  The persisted `token_expiry`
  field, an ISO-8601 string in the file, is modelled by the timestamp
  it parses to.
* JavaScript truthiness on optional string fields: `none` and `some ""`
  are falsy; `a || b` on numbers treats `0` as falsy.
* The HTTP transport is an oracle passed in explicitly: for the
  pagination loops, a function from the request's start position to the
  response; for one-shot calls, a single response record.
* Effects are explicit: `refreshAccessToken` also returns the list of
  credential records it persisted via `saveCredentials`, and the query
  loops return the number of requests they issued.  Fuel makes the
  `while (true)` loops total; exhausted fuel is reported as `fuelOut`
  and never conflated with a genuine result.
-/

namespace QuickBooks

/-- The persisted credential record (`interface QBCredentials`, auth.ts).
`access_token` and `token_expiry` are the two optional fields. -/
structure QBCredentials where
  client_id : String
  client_secret : String
  realm_id : String
  access_token : Option String
  refresh_token : String
  token_expiry : Option Int
deriving DecidableEq

/-- JavaScript truthiness of an optional string field: absent and `""` are falsy. -/
def strTruthy : Option String → Bool
  | none => false
  | some s => !(s == "")

/-- JavaScript `a || b` on an optional numeric field (`0` is falsy). -/
def jsOrInt : Option Int → Int → Int
  | none, d => d
  | some x, d => if x = 0 then d else x

/-- JavaScript `a || b` on an optional string field (the empty string is falsy). -/
def jsOrStr : Option String → String → String
  | none, d => d
  | some s, d => if s = "" then d else s

/-- Outcome of the POST to the fixed token endpoint, as seen by
`refreshAccessToken`: the HTTP status line plus the fields of the parsed
JSON body that the code reads. -/
structure TokenResponse where
  ok : Bool
  status : Nat
  statusText : String
  errorText : String
  access_token : Option String
  refresh_token : Option String
  expires_in : Option Int
deriving DecidableEq

/-- Error message built at auth.ts line 170 for a non-success token exchange. -/
def tokenRefreshFailedMsg (status : Nat) (statusText errorText : String) : String :=
  "Token refresh failed: " ++ toString status ++ " " ++ statusText ++ "\n" ++ errorText

/-- Error message built at auth.ts line 176 when the response lacks an access token. -/
def missingAccessTokenMsg : String :=
  "Token refresh response missing access_token"

/-- The `updatedCredentials` record built at auth.ts lines 182-187:
the previous record with the new access token, the rotated refresh token
when the response supplies a truthy one, and the freshly computed expiry
`Date.now() + (data.expires_in || 3600) * 1000`. -/
def updatedCredentials (credentials : QBCredentials) (resp : TokenResponse)
    (now : Int) (tok : String) : QBCredentials :=
  { credentials with
    access_token := some tok,
    refresh_token := jsOrStr resp.refresh_token credentials.refresh_token,
    token_expiry := some (now + jsOrInt resp.expires_in 3600 * 1000) }

/-- `refreshAccessToken` (auth.ts lines 150-192), given the loaded
credentials, the token-endpoint response and the current time.  Returns
the thrown error or the returned record, paired with the list of records
persisted through `saveCredentials` (in order). -/
def refreshAccessToken (credentials : QBCredentials) (resp : TokenResponse)
    (now : Int) : Except String QBCredentials × List QBCredentials :=
  if resp.ok = false then
    (Except.error (tokenRefreshFailedMsg resp.status resp.statusText resp.errorText), [])
  else
    match resp.access_token with
    | none => (Except.error missingAccessTokenMsg, [])
    | some tok =>
      if tok = "" then (Except.error missingAccessTokenMsg, [])
      else
        (Except.ok (updatedCredentials credentials resp now tok),
         [updatedCredentials credentials resp now tok])

instance {ε α : Type} [DecidableEq ε] [DecidableEq α] : DecidableEq (Except ε α)
  | Except.error a, Except.error b =>
    if h : a = b then isTrue (by rw [h]) else isFalse (fun hh => by cases hh; exact h rfl)
  | Except.error _, Except.ok _ => isFalse (fun h => Except.noConfusion h)
  | Except.ok _, Except.error _ => isFalse (fun h => Except.noConfusion h)
  | Except.ok a, Except.ok b =>
    if h : a = b then isTrue (by rw [h]) else isFalse (fun hh => by cases hh; exact h rfl)

/-- Result of `getValidAccessToken`: the returned `(accessToken, realmId)`
pair or the thrown error, the number of refresh calls (network calls)
made, and the credential records persisted along the way. -/
structure TokenFetch where
  result : Except String (String × String)
  refreshCalls : Nat
  saved : List QBCredentials
deriving DecidableEq

/-- Error message built at auth.ts line 215. -/
def failedAfterRefreshMsg : String :=
  "Failed to get access token after refresh"

/-- The refresh path of `getValidAccessToken` (auth.ts lines 211-221):
call `refreshAccessToken`, then re-check the access token before
returning it with the realm id. -/
def refreshAndReturn (credentials : QBCredentials) (resp : TokenResponse)
    (now : Int) : TokenFetch :=
  match refreshAccessToken credentials resp now with
  | (Except.error e, log) => ⟨Except.error e, 1, log⟩
  | (Except.ok c, log) =>
    match c.access_token with
    | none => ⟨Except.error failedAfterRefreshMsg, 1, log⟩
    | some t =>
      if t = "" then ⟨Except.error failedAfterRefreshMsg, 1, log⟩
      else ⟨Except.ok (t, c.realm_id), 1, log⟩

/-- `getValidAccessToken` (auth.ts lines 194-222): if a truthy cached
access token exists and its expiry is more than 5 minutes past `now`,
return it with the realm id and make no network call; otherwise refresh. -/
def getValidAccessToken (credentials : QBCredentials) (resp : TokenResponse)
    (now : Int) : TokenFetch :=
  match credentials.access_token, credentials.token_expiry with
  | some tok, some expiry =>
    if tok ≠ "" ∧ expiry - now > 5 * 60 * 1000 then
      ⟨Except.ok (tok, credentials.realm_id), 0, []⟩
    else refreshAndReturn credentials resp now
  | some _, none => refreshAndReturn credentials resp now
  | none, _ => refreshAndReturn credentials resp now

/-! ## Query engine (QuickBooks API client module) -/

/-- Page-size constant `MAX_RESULTS_PER_PAGE` of the client module. -/
def MAX_RESULTS_PER_PAGE : Nat := 1000

/-- The single-quote character wrapped around SQL date literals. -/
def quoteMark : String := "\x27"

/-- `formatDateForQuery` (client module lines 55-63).  The TypeScript
`date.includes("T")` test is rendered on the string's character list. -/
def formatDateForQuery (date : String) (isEnd : Bool) : String :=
  if date.data.contains 'T' then quoteMark ++ date ++ quoteMark
  else
    quoteMark ++ date ++ "T" ++ (if isEnd then "23:59:59Z" else "00:00:00Z") ++ quoteMark

/-- The `transactionEntities` list of the client module (lines 102-105). -/
def transactionEntities : List String :=
  ["Invoice", "Bill", "Purchase", "Deposit", "Payment",
   "TimeActivity", "Estimate", "SalesReceipt", "CreditMemo", "JournalEntry"]

/-- The `orderBy` clause chosen by `query` (client module lines 106-108). -/
def orderBy (entity : String) : String :=
  if transactionEntities.contains entity then "ORDER BY TxnDate DESC, Id DESC"
  else "ORDER BY Id DESC"

/-- Error message built for a non-success response from the query,
entity-by-ID and reference-map calls (client module). -/
def apiErrorMsg (status : Nat) (statusText body : String) : String :=
  "QuickBooks API error: " ++ toString status ++ " " ++ statusText ++ "\n" ++ body

/-- One HTTP response of the query endpoint as the pagination loops see
it: the status line and, when successful, the records parsed out of
`data.QueryResponse?.[entity] || []`. -/
structure PageResp (α : Type) where
  ok : Bool
  status : Nat
  statusText : String
  body : String
  results : List α
deriving DecidableEq

/-- Outcome of a pagination loop: the accumulated records or the thrown
error, each with the number of requests issued; `fuelOut` marks fuel
exhaustion of the embedding, never a behaviour of the code. -/
inductive QueryOutcome (α : Type) where
  | ok (records : List α) (requests : Nat)
  | err (msg : String) (requests : Nat)
  | fuelOut
deriving DecidableEq

variable {α : Type}

/-- The `while (true)` pagination loop of `query` (client module lines
110-142), with the response of each iteration's request given by
`remote` applied to the current `STARTPOSITION`.  `maxResults` is an
integer because the CLI feeds `parseInt(flags.max, 10)` through
unvalidated. -/
def queryLoop (remote : Nat → PageResp α) (maxResults : Int) :
    Nat → Nat → List α → Nat → QueryOutcome α
  | 0, _, _, _ => QueryOutcome.fuelOut
  | fuel + 1, startPosition, acc, reqs =>
    if (remote startPosition).ok = false then
      QueryOutcome.err
        (apiErrorMsg (remote startPosition).status (remote startPosition).statusText
          (remote startPosition).body)
        (reqs + 1)
    else if ((remote startPosition).results.length : Int) < maxResults then
      QueryOutcome.ok (acc ++ (remote startPosition).results) (reqs + 1)
    else
      queryLoop remote maxResults fuel (startPosition + (remote startPosition).results.length)
        (acc ++ (remote startPosition).results) (reqs + 1)

/-- `query`'s loop entry: `startPosition = 1`, no accumulated results,
no requests issued yet. -/
def query (remote : Nat → PageResp α) (maxResults : Int) (fuel : Nat) : QueryOutcome α :=
  queryLoop remote maxResults fuel 1 [] 0

/-- Response of the entity-by-ID GET as `getById` (client module lines
150-169) sees it; `payload` is `data[entity]`, possibly absent. -/
structure EntityResp where
  ok : Bool
  status : Nat
  statusText : String
  body : String
  payload : Option String
deriving DecidableEq

/-- `getById`: throw on a non-success status, else return `data[entity]`. -/
def getById (resp : EntityResp) : Except String (Option String) :=
  if resp.ok = false then
    Except.error (apiErrorMsg resp.status resp.statusText resp.body)
  else Except.ok resp.payload

/-- A record of a reference-style entity as `getReferenceMaps` reads it:
the two projected fields, each possibly missing. -/
structure RefRecord where
  Id : Option String
  FullyQualifiedName : Option String
deriving DecidableEq

/-- JavaScript object update `refMap[k] = v` on the insertion-ordered
entry list of the object: overwrite the existing entry for `k` in place,
else append. -/
def objSet (m : List (String × String)) (k v : String) : List (String × String) :=
  if m.any (fun p => p.1 == k) then m.map (fun p => if p.1 = k then (k, v) else p)
  else m ++ [(k, v)]

/-- Key membership in the entry list of the reference map. -/
def hasKey (m : List (String × String)) (k : String) : Bool :=
  m.any (fun p => p.1 == k)

/-- Body of the `for (const ref of refs)` loop of `getReferenceMaps`
(client module lines 208-212): insert a record that has a truthy `Id`
and a truthy `FullyQualifiedName`, skip the rest. -/
def refStep (acc : List (String × String)) (ref : RefRecord) : List (String × String) :=
  match ref.Id, ref.FullyQualifiedName with
  | some i, some n => if i ≠ "" ∧ n ≠ "" then objSet acc i n else acc
  | some _, none => acc
  | none, _ => acc

/-- The whole `for (const ref of refs)` pass over one page. -/
def addRefs (m : List (String × String)) (refs : List RefRecord) : List (String × String) :=
  List.foldl refStep m refs

/-- Outcome of `getReferenceMaps`: the entry list of the map plus the
full list of records scanned across all pages, or the thrown error. -/
inductive RefsOutcome where
  | ok (map : List (String × String)) (scanned : List RefRecord)
  | err (msg : String)
  | fuelOut
deriving DecidableEq

/-- The `while (true)` loop of `getReferenceMaps` (client module lines
183-219): stop on a non-success status (throw), on an empty page before
inserting, or on a short page after inserting; otherwise advance the
start position by the page length. -/
def getReferenceMapsLoop (remote : Nat → PageResp RefRecord) :
    Nat → Nat → List (String × String) → List RefRecord → RefsOutcome
  | 0, _, _, _ => RefsOutcome.fuelOut
  | fuel + 1, startPosition, refMap, scanned =>
    if (remote startPosition).ok = false then
      RefsOutcome.err
        (apiErrorMsg (remote startPosition).status (remote startPosition).statusText
          (remote startPosition).body)
    else if (remote startPosition).results.length = 0 then
      RefsOutcome.ok refMap scanned
    else if (remote startPosition).results.length < MAX_RESULTS_PER_PAGE then
      RefsOutcome.ok (addRefs refMap (remote startPosition).results)
        (scanned ++ (remote startPosition).results)
    else
      getReferenceMapsLoop remote fuel
        (startPosition + (remote startPosition).results.length)
        (addRefs refMap (remote startPosition).results)
        (scanned ++ (remote startPosition).results)

/-- `getReferenceMaps`'s loop entry: `startPosition = 1`, empty map. -/
def getReferenceMaps (remote : Nat → PageResp RefRecord) (fuel : Nat) : RefsOutcome :=
  getReferenceMapsLoop remote fuel 1 [] []

/-- Response of the company-info GET as `checkConnection` sees it;
`companyInfo` is the `data.CompanyInfo` payload, kept opaque. -/
structure ProfileResp where
  ok : Bool
  status : Nat
  statusText : String
  body : String
  companyInfo : Option String
deriving DecidableEq

/-- The structured result of `checkConnection` (client module lines
227-267). -/
structure ConnectionResult where
  connected : Bool
  companyInfo : Option String
  realmId : Option String
  error : Option String
deriving DecidableEq

/-- `checkConnection`: the `try` block's token acquisition and profile
fetch are oracles that either throw (`Except.error`) or produce a value;
every failure is captured into a `{connected: false, error}` record. -/
def checkConnection (token : Except String (String × String))
    (profile : Except String ProfileResp) : ConnectionResult :=
  match token with
  | Except.error e => ⟨false, none, none, some e⟩
  | Except.ok (_accessToken, realmId) =>
    match profile with
    | Except.error e => ⟨false, none, none, some e⟩
    | Except.ok resp =>
      if resp.ok = false then
        ⟨false, none, none,
         some ("API error: " ++ toString resp.status ++ " " ++ resp.statusText ++ "\n" ++ resp.body)⟩
      else ⟨true, resp.companyInfo, some realmId, none⟩

/-- A successful page response, as produced by the mock remotes of the
spec's pagination property. -/
def okPage (results : List α) : PageResp α :=
  ⟨true, 200, "OK", "", results⟩

/-- Mock remote serving three fixed pages at the start positions `1`,
`1001` and `2001` the loop reaches with `maxResults = 1000`, and empty
pages elsewhere. -/
def mkRemote3 (p1 p2 p3 : List α) : Nat → PageResp α := fun p =>
  if p = 1 then okPage p1
  else if p = 1001 then okPage p2
  else if p = 2001 then okPage p3
  else okPage []

/-- `saveCredentials` (auth.ts lines 140-148) writes
`JSON.stringify(credentials)`: the persisted record is the full record,
verbatim. -/
def saveCredentials (credentials : QBCredentials) : QBCredentials :=
  credentials

/-- The spec's record invariant on the two optional fields:
`access_token` and `token_expiry` are both present or both absent. -/
def credInvariant (c : QBCredentials) : Prop :=
  (c.access_token.isSome = true ∧ c.token_expiry.isSome = true)
  ∨ (c.access_token = none ∧ c.token_expiry = none)

/-- Presence of the four required fields; `loadCredentials` (auth.ts
line 119) enforces their JavaScript truthiness, so presence is
non-emptiness. -/
def requiredPresent (c : QBCredentials) : Prop :=
  c.client_id ≠ "" ∧ c.client_secret ≠ "" ∧ c.realm_id ≠ "" ∧ c.refresh_token ≠ ""

/-! ## Concrete fixtures used by witnesses and counterexamples -/

/-- A credential record with a cached token expiring far in the future. -/
def wCredsHot : QBCredentials :=
  ⟨"id", "secret", "realm", some "tokA", "rt", some 10000000⟩

/-- A credential record with no cached token. -/
def wCredsCold : QBCredentials :=
  ⟨"id", "secret", "realm", none, "rt", none⟩

/-- A successful token-endpoint response carrying only an access token. -/
def wRespOK : TokenResponse :=
  ⟨true, 200, "OK", "", some "newTok", none, none⟩

/-- A successful token-endpoint response reporting `expires_in: 1800`
and a rotated refresh token. -/
def wRespRotate : TokenResponse :=
  ⟨true, 200, "OK", "", some "newTok", some "rt2", some 1800⟩

/-- A successful token-endpoint response reporting `expires_in: 0`. -/
def cexResp : TokenResponse :=
  ⟨true, 200, "OK", "", some "atok", none, some 0⟩

/-- A 401 response from the entity-by-ID endpoint. -/
def wResp401 : EntityResp :=
  ⟨false, 401, "Unauthorized", "body401", none⟩

/-- A successful company-info response. -/
def wProfile : ProfileResp :=
  ⟨true, 200, "OK", "", some "Acme"⟩

/-- A full page of 1000 records. -/
def wPageFull : List Unit := List.replicate 1000 ()

/-- A short page of 400 records. -/
def wPageShort : List Unit := List.replicate 400 ()

/-- A one-page reference-map remote: two records at position 1, one of
them missing its `Id`, and empty pages elsewhere. -/
def wRefRemote : Nat → PageResp RefRecord := fun p =>
  if p = 1 then okPage [⟨some "1", some "A"⟩, ⟨none, some "B"⟩]
  else okPage []

/-! ## Helper lemmas -/

theorem updatedCredentials_access_token (c : QBCredentials) (resp : TokenResponse)
    (now : Int) (tok : String) :
    (updatedCredentials c resp now tok).access_token = some tok := rfl

theorem updatedCredentials_realm_id (c : QBCredentials) (resp : TokenResponse)
    (now : Int) (tok : String) :
    (updatedCredentials c resp now tok).realm_id = c.realm_id := rfl

theorem updatedCredentials_token_expiry (c : QBCredentials) (resp : TokenResponse)
    (now : Int) (tok : String) :
    (updatedCredentials c resp now tok).token_expiry =
      some (now + jsOrInt resp.expires_in 3600 * 1000) := rfl

theorem refreshAccessToken_ok (c : QBCredentials) (resp : TokenResponse) (now : Int)
    (tok : String) (hok : resp.ok = true) (hat : resp.access_token = some tok)
    (hne : tok ≠ "") :
    refreshAccessToken c resp now =
      (Except.ok (updatedCredentials c resp now tok),
       [updatedCredentials c resp now tok]) := by
  unfold refreshAccessToken
  rw [hat]
  simp [hok, hne]

theorem refreshAccessToken_httpError (c : QBCredentials) (resp : TokenResponse) (now : Int)
    (hok : resp.ok = false) :
    refreshAccessToken c resp now =
      (Except.error (tokenRefreshFailedMsg resp.status resp.statusText resp.errorText), []) := by
  unfold refreshAccessToken
  rw [if_pos hok]

theorem refreshAccessToken_missingToken (c : QBCredentials) (resp : TokenResponse) (now : Int)
    (hok : resp.ok = true) (hat : resp.access_token = none) :
    refreshAccessToken c resp now = (Except.error missingAccessTokenMsg, []) := by
  unfold refreshAccessToken
  rw [hat]
  simp [hok]

theorem refreshAccessToken_emptyToken (c : QBCredentials) (resp : TokenResponse) (now : Int)
    (hok : resp.ok = true) (hat : resp.access_token = some "") :
    refreshAccessToken c resp now = (Except.error missingAccessTokenMsg, []) := by
  unfold refreshAccessToken
  rw [hat]
  simp [hok]

theorem refreshAccessToken_ok_inv (c : QBCredentials) (resp : TokenResponse) (now : Int)
    (c2 : QBCredentials) (h : (refreshAccessToken c resp now).1 = Except.ok c2) :
    ∃ tok, resp.ok = true ∧ resp.access_token = some tok ∧ tok ≠ "" ∧
      c2 = updatedCredentials c resp now tok := by
  rcases hok : resp.ok with _ | _
  · rw [refreshAccessToken_httpError c resp now hok] at h
    cases h
  · rcases hat : resp.access_token with _ | tok
    · rw [refreshAccessToken_missingToken c resp now hok hat] at h
      cases h
    · by_cases hne : tok = ""
      · subst hne
        rw [refreshAccessToken_emptyToken c resp now hok hat] at h
        cases h
      · rw [refreshAccessToken_ok c resp now tok hok hat hne] at h
        cases h
        exact ⟨tok, rfl, rfl, hne, rfl⟩

theorem refreshAccessToken_saved_inv (c : QBCredentials) (resp : TokenResponse) (now : Int)
    (s : QBCredentials) (h : s ∈ (refreshAccessToken c resp now).2) :
    ∃ tok, resp.ok = true ∧ resp.access_token = some tok ∧ tok ≠ "" ∧
      s = updatedCredentials c resp now tok := by
  rcases hok : resp.ok with _ | _
  · rw [refreshAccessToken_httpError c resp now hok] at h
    cases h
  · rcases hat : resp.access_token with _ | tok
    · rw [refreshAccessToken_missingToken c resp now hok hat] at h
      cases h
    · by_cases hne : tok = ""
      · subst hne
        rw [refreshAccessToken_emptyToken c resp now hok hat] at h
        cases h
      · rw [refreshAccessToken_ok c resp now tok hok hat hne] at h
        simp only [List.mem_singleton] at h
        exact ⟨tok, rfl, rfl, hne, h⟩

theorem refreshAndReturn_ok (c : QBCredentials) (resp : TokenResponse) (now : Int)
    (tok : String) (hok : resp.ok = true) (hat : resp.access_token = some tok)
    (hne : tok ≠ "") :
    refreshAndReturn c resp now =
      ⟨Except.ok (tok, c.realm_id), 1, [updatedCredentials c resp now tok]⟩ := by
  unfold refreshAndReturn
  rw [refreshAccessToken_ok c resp now tok hok hat hne]
  simp [updatedCredentials_access_token, hne, updatedCredentials_realm_id]

theorem refreshAndReturn_refreshCalls (c : QBCredentials) (resp : TokenResponse)
    (now : Int) : (refreshAndReturn c resp now).refreshCalls = 1 := by
  unfold refreshAndReturn
  rcases h : refreshAccessToken c resp now with ⟨res, log⟩
  rcases res with e | cr
  · rfl
  · rcases ha : cr.access_token with _ | t
    · simp [ha]
    · by_cases ht : t = "" <;> simp [ha, ht]

theorem jsOrStr_ne (o : Option String) (d : String) (hd : d ≠ "") : jsOrStr o d ≠ "" := by
  rcases o with _ | s
  · simp [jsOrStr]
    exact hd
  · by_cases hs : s = ""
    · simp [jsOrStr, hs]
      exact hd
    · simp [jsOrStr, hs]

theorem queryLoop_succ {α : Type} (remote : Nat → PageResp α) (maxResults : Int)
    (fuel startPosition : Nat) (acc : List α) (reqs : Nat) :
    queryLoop remote maxResults (fuel + 1) startPosition acc reqs =
      if (remote startPosition).ok = false then
        QueryOutcome.err
          (apiErrorMsg (remote startPosition).status (remote startPosition).statusText
            (remote startPosition).body)
          (reqs + 1)
      else if ((remote startPosition).results.length : Int) < maxResults then
        QueryOutcome.ok (acc ++ (remote startPosition).results) (reqs + 1)
      else
        queryLoop remote maxResults fuel (startPosition + (remote startPosition).results.length)
          (acc ++ (remote startPosition).results) (reqs + 1) := rfl

theorem queryLoop_ok_step {α : Type} (remote : Nat → PageResp α) (maxResults : Int)
    (fuel startPosition : Nat) (acc : List α) (reqs : Nat)
    (hok : (remote startPosition).ok = true)
    (hlong : ¬ (((remote startPosition).results.length : Int) < maxResults)) :
    queryLoop remote maxResults (fuel + 1) startPosition acc reqs =
      queryLoop remote maxResults fuel (startPosition + (remote startPosition).results.length)
        (acc ++ (remote startPosition).results) (reqs + 1) := by
  rw [queryLoop_succ, if_neg (by simp [hok]), if_neg hlong]

theorem queryLoop_stop_step {α : Type} (remote : Nat → PageResp α) (maxResults : Int)
    (fuel startPosition : Nat) (acc : List α) (reqs : Nat)
    (hok : (remote startPosition).ok = true)
    (hshort : ((remote startPosition).results.length : Int) < maxResults) :
    queryLoop remote maxResults (fuel + 1) startPosition acc reqs =
      QueryOutcome.ok (acc ++ (remote startPosition).results) (reqs + 1) := by
  rw [queryLoop_succ, if_neg (by simp [hok]), if_pos hshort]

theorem queryLoop_no_exit {α : Type} (remote : Nat → PageResp α) (maxResults : Int)
    (hok : ∀ p, (remote p).ok = true) (hm : maxResults ≤ 0) :
    ∀ fuel startPosition acc reqs,
      queryLoop remote maxResults fuel startPosition acc reqs = QueryOutcome.fuelOut := by
  intro fuel
  induction fuel with
  | zero => intro s a r; rfl
  | succ f ih =>
    intro s a r
    have hlong : ¬ (((remote s).results.length : Int) < maxResults) := by
      intro h
      have h0 : (0 : Int) ≤ ((remote s).results.length : Int) := Int.natCast_nonneg _
      omega
    rw [queryLoop_ok_step _ _ _ _ _ _ (hok s) hlong]
    exact ih _ _ _

theorem queryLoop_terminates {α : Type} (remote : Nat → PageResp α) (maxResults : Int)
    (hok : ∀ p, (remote p).ok = true) (hm : 1 ≤ maxResults)
    (N : Nat) (hN : ∀ p, N ≤ p → (remote p).results = []) :
    ∀ fuel startPosition acc reqs, 1 ≤ fuel → N + 2 ≤ fuel + startPosition →
      ∃ records requests,
        queryLoop remote maxResults fuel startPosition acc reqs =
          QueryOutcome.ok records requests := by
  intro fuel
  induction fuel with
  | zero => intro s a r h1 _; omega
  | succ f ih =>
    intro s a r _ hbound
    by_cases hshort : ((remote s).results.length : Int) < maxResults
    · exact ⟨_, _, queryLoop_stop_step _ _ _ _ _ _ (hok s) hshort⟩
    · have hlen : 1 ≤ (remote s).results.length := by
        by_contra hc
        have hzero : (remote s).results.length = 0 := by omega
        apply hshort
        rw [hzero]
        omega
      have hsN : s < N := by
        by_contra hc
        have hnil : (remote s).results = [] := hN s (by omega)
        rw [hnil] at hlen
        simp at hlen
      rw [queryLoop_ok_step _ _ _ _ _ _ (hok s) hshort]
      exact ih _ _ _ (by omega) (by omega)

theorem objSet_length (m : List (String × String)) (k v : String) :
    (objSet m k v).length ≤ m.length + 1 := by
  unfold objSet
  split
  · simp
  · simp

theorem hasKey_objSet_self (m : List (String × String)) (k v : String) :
    hasKey (objSet m k v) k = true := by
  unfold hasKey objSet
  split
  · next h =>
    simp only [List.any_eq_true, beq_iff_eq] at h ⊢
    obtain ⟨p, hp, hpk⟩ := h
    refine ⟨(k, v), ?_, rfl⟩
    have hfp : (fun p : String × String => if p.1 = k then (k, v) else p) p = (k, v) := by
      simp [hpk]
    have hmem := List.mem_map_of_mem (fun p : String × String => if p.1 = k then (k, v) else p) hp
    rw [hfp] at hmem
    exact hmem
  · simp

theorem hasKey_objSet_mono (m : List (String × String)) (k v q : String)
    (h : hasKey m q = true) : hasKey (objSet m k v) q = true := by
  unfold hasKey objSet
  unfold hasKey at h
  simp only [List.any_eq_true, beq_iff_eq] at h ⊢
  obtain ⟨p, hp, hpq⟩ := h
  split
  · by_cases hpk : p.1 = k
    · refine ⟨(k, v), ?_, by rw [← hpk, hpq]⟩
      have hfp : (fun p : String × String => if p.1 = k then (k, v) else p) p = (k, v) := by
        simp [hpk]
      have hmem := List.mem_map_of_mem (fun p : String × String => if p.1 = k then (k, v) else p) hp
      rw [hfp] at hmem
      exact hmem
    · refine ⟨p, ?_, hpq⟩
      have hfp : (fun p : String × String => if p.1 = k then (k, v) else p) p = p := by
        simp [hpk]
      have hmem := List.mem_map_of_mem (fun p : String × String => if p.1 = k then (k, v) else p) hp
      rw [hfp] at hmem
      exact hmem
  · exact ⟨p, List.mem_append_left _ hp, hpq⟩

theorem mem_objSet (m : List (String × String)) (k v : String) (q : String × String)
    (h : q ∈ objSet m k v) : q ∈ m ∨ q = (k, v) := by
  unfold objSet at h
  split at h
  · obtain ⟨p, hp, hfp⟩ := List.mem_map.mp h
    by_cases hpk : p.1 = k
    · right
      rw [← hfp]
      simp [hpk]
    · left
      simp only [hpk, if_false] at hfp
      rw [← hfp]
      exact hp
  · rcases List.mem_append.mp h with hm | hk
    · exact Or.inl hm
    · exact Or.inr (by simpa using hk)

theorem refStep_length (m : List (String × String)) (r : RefRecord) :
    (refStep m r).length ≤ m.length + 1 := by
  unfold refStep
  rcases r with ⟨i, n⟩
  rcases i with _ | i <;> rcases n with _ | n <;> simp
  split
  · exact objSet_length m i n
  · omega

theorem hasKey_refStep_mono (m : List (String × String)) (r : RefRecord) (q : String)
    (h : hasKey m q = true) : hasKey (refStep m r) q = true := by
  unfold refStep
  rcases r with ⟨i, n⟩
  rcases i with _ | i <;> rcases n with _ | n <;> simp [h]
  split
  · exact hasKey_objSet_mono m i n q h
  · exact h

theorem mem_refStep (m : List (String × String)) (r : RefRecord) (q : String × String)
    (h : q ∈ refStep m r) :
    q ∈ m ∨ (r.Id = some q.1 ∧ r.FullyQualifiedName = some q.2 ∧ q.1 ≠ "" ∧ q.2 ≠ "") := by
  unfold refStep at h
  rcases r with ⟨i, n⟩
  rcases i with _ | i <;> rcases n with _ | n <;> simp_all
  split at h
  · next hin =>
    rcases mem_objSet _ _ _ _ h with hm | hq
    · exact Or.inl hm
    · right
      rw [hq]
      exact ⟨rfl, rfl, hin.1, hin.2⟩
  · exact Or.inl h

theorem hasKey_refStep_self (m : List (String × String)) (r : RefRecord) (i n : String)
    (hi : r.Id = some i) (hi2 : i ≠ "") (hn : r.FullyQualifiedName = some n) (hn2 : n ≠ "") :
    hasKey (refStep m r) i = true := by
  unfold refStep
  rw [hi, hn]
  simp only [if_pos (And.intro hi2 hn2)]
  exact hasKey_objSet_self m i n

theorem addRefs_length (refs : List RefRecord) :
    ∀ m : List (String × String), (addRefs m refs).length ≤ m.length + refs.length := by
  induction refs with
  | nil => intro m; simp [addRefs]
  | cons r rs ih =>
    intro m
    have h1 := refStep_length m r
    have h2 := ih (refStep m r)
    simp only [addRefs, List.foldl_cons] at h2 ⊢
    calc (List.foldl refStep (refStep m r) rs).length
        ≤ (refStep m r).length + rs.length := h2
      _ ≤ m.length + 1 + rs.length := by omega
      _ = m.length + (r :: rs).length := by simp [List.length_cons]; omega

theorem hasKey_addRefs_mono (refs : List RefRecord) :
    ∀ (m : List (String × String)) (q : String), hasKey m q = true →
      hasKey (addRefs m refs) q = true := by
  induction refs with
  | nil => intro m q h; simpa [addRefs] using h
  | cons r rs ih =>
    intro m q h
    simp only [addRefs, List.foldl_cons]
    exact ih (refStep m r) q (hasKey_refStep_mono m r q h)

theorem hasKey_addRefs_of_mem (refs : List RefRecord) :
    ∀ (m : List (String × String)) (r : RefRecord) (i n : String), r ∈ refs →
      r.Id = some i → i ≠ "" → r.FullyQualifiedName = some n → n ≠ "" →
      hasKey (addRefs m refs) i = true := by
  induction refs with
  | nil => intro _ _ _ _ h; cases h
  | cons r0 rs ih =>
    intro m r i n hmem hi hi2 hn hn2
    simp only [addRefs, List.foldl_cons]
    rcases List.mem_cons.mp hmem with heq | htl
    · subst heq
      exact hasKey_addRefs_mono rs (refStep m r) i (hasKey_refStep_self m r i n hi hi2 hn hn2)
    · exact ih (refStep m r0) r i n htl hi hi2 hn hn2

theorem mem_addRefs (refs : List RefRecord) :
    ∀ (m : List (String × String)) (q : String × String), q ∈ addRefs m refs →
      q ∈ m ∨ ∃ r, r ∈ refs ∧ r.Id = some q.1 ∧ r.FullyQualifiedName = some q.2 ∧
        q.1 ≠ "" ∧ q.2 ≠ "" := by
  induction refs with
  | nil => intro m q h; exact Or.inl (by simpa [addRefs] using h)
  | cons r0 rs ih =>
    intro m q h
    simp only [addRefs, List.foldl_cons] at h
    rcases ih (refStep m r0) q h with hm | ⟨r, hr, hrest⟩
    · rcases mem_refStep m r0 q hm with hm0 | hfields
      · exact Or.inl hm0
      · exact Or.inr ⟨r0, List.mem_cons_self _ _, hfields⟩
    · exact Or.inr ⟨r, List.mem_cons_of_mem _ hr, hrest⟩

theorem refsLoop_invariant (remote : Nat → PageResp RefRecord) :
    ∀ (fuel p : Nat) (m0 : List (String × String)) (sc0 : List RefRecord)
      (m : List (String × String)) (sc : List RefRecord),
      getReferenceMapsLoop remote fuel p m0 sc0 = RefsOutcome.ok m sc →
      m.length + sc0.length ≤ m0.length + sc.length
      ∧ (∀ k, hasKey m0 k = true → hasKey m k = true)
      ∧ (∃ tail, sc = sc0 ++ tail)
      ∧ (∀ r, r ∈ sc → r ∈ sc0 ∨ ∀ i n, r.Id = some i → i ≠ "" →
          r.FullyQualifiedName = some n → n ≠ "" → hasKey m i = true)
      ∧ (∀ q, q ∈ m → q ∈ m0 ∨ ∃ r, r ∈ sc ∧ r.Id = some q.1 ∧
          r.FullyQualifiedName = some q.2 ∧ q.1 ≠ "" ∧ q.2 ≠ "") := by
  intro fuel
  induction fuel with
  | zero => intro p m0 sc0 m sc h; cases h
  | succ f ih =>
    intro p m0 sc0 m sc h
    rw [getReferenceMapsLoop] at h
    split at h
    · cases h
    · split at h
      · cases h
        refine ⟨by omega, fun k hk => hk, ⟨[], by simp⟩, fun r hr => Or.inl hr,
          fun q hq => Or.inl hq⟩
      · split at h
        · cases h
          refine ⟨?_, ?_, ⟨(remote p).results, rfl⟩, ?_, ?_⟩
          · have := addRefs_length (remote p).results m0
            simp only [List.length_append]
            omega
          · intro k hk
            exact hasKey_addRefs_mono _ _ _ hk
          · intro r hr
            rcases List.mem_append.mp hr with h0 | hpage
            · exact Or.inl h0
            · right
              intro i n hi hi2 hn hn2
              exact hasKey_addRefs_of_mem _ _ _ _ _ hpage hi hi2 hn hn2
          · intro q hq
            rcases mem_addRefs _ _ _ hq with h0 | ⟨r, hr, hrest⟩
            · exact Or.inl h0
            · exact Or.inr ⟨r, List.mem_append_right _ hr, hrest⟩
        · have hrec := ih _ _ _ _ _ h
          obtain ⟨hlen, hmono, ⟨tail, htail⟩, hscan, hprov⟩ := hrec
          have hsub : ∀ r, r ∈ sc0 ++ (remote p).results → r ∈ sc := by
            intro r hr
            rw [htail]
            exact List.mem_append_left _ hr
          refine ⟨?_, ?_, ?_, ?_, ?_⟩
          · have h1 := addRefs_length (remote p).results m0
            simp only [List.length_append] at hlen
            omega
          · intro k hk
            exact hmono k (hasKey_addRefs_mono _ _ _ hk)
          · refine ⟨(remote p).results ++ tail, ?_⟩
            rw [htail, List.append_assoc]
          · intro r hr
            rcases hscan r hr with hsc1 | hkey
            · rcases List.mem_append.mp hsc1 with h0 | hpage
              · exact Or.inl h0
              · right
                intro i n hi hi2 hn hn2
                exact hmono i (hasKey_addRefs_of_mem _ _ _ _ _ hpage hi hi2 hn hn2)
            · exact Or.inr hkey
          · intro q hq
            rcases hprov q hq with hm1 | hsc
            · rcases mem_addRefs _ _ _ hm1 with h0 | ⟨r, hr, hrest⟩
              · exact Or.inl h0
              · exact Or.inr ⟨r, hsub r (List.mem_append_right _ hr), hrest⟩
            · obtain ⟨r, hr, hrest⟩ := hsc
              exact Or.inr ⟨r, hr, hrest⟩

theorem getValidAccessToken_mk_some_some (ci cs rid rt tok : String) (expiry : Int)
    (resp : TokenResponse) (now : Int) :
    getValidAccessToken ⟨ci, cs, rid, some tok, rt, some expiry⟩ resp now =
      if tok ≠ "" ∧ expiry - now > 5 * 60 * 1000 then
        ⟨Except.ok (tok, rid), 0, []⟩
      else refreshAndReturn ⟨ci, cs, rid, some tok, rt, some expiry⟩ resp now := rfl

/-! ## Claim theorems -/

/-- C3: Date formatting passes any input that already contains a time
component (the character T) through unchanged inside the SQL quotes, for
both the start and the end position; every bare calendar date is widened
to `00:00:00Z` by the start formatting and to `23:59:59Z` of the same
date by the end formatting; and re-formatting an already widened
timestamp adds nothing (idempotence). -/
theorem C3_formatDateForQuery :
    (∀ (d : String) (e : Bool), d.data.contains 'T' = true →
      formatDateForQuery d e = quoteMark ++ d ++ quoteMark)
    ∧ (∀ d : String, d.data.contains 'T' = false →
      formatDateForQuery d false = quoteMark ++ d ++ "T" ++ "00:00:00Z" ++ quoteMark
      ∧ formatDateForQuery d true = quoteMark ++ d ++ "T" ++ "23:59:59Z" ++ quoteMark)
    ∧ formatDateForQuery ("2024-01-01" ++ "T" ++ "00:00:00Z") false =
        quoteMark ++ ("2024-01-01" ++ "T" ++ "00:00:00Z") ++ quoteMark
    ∧ formatDateForQuery ("2024-01-01" ++ "T" ++ "23:59:59Z") true =
        quoteMark ++ ("2024-01-01" ++ "T" ++ "23:59:59Z") ++ quoteMark := by
  refine ⟨?_, ?_, by decide, by decide⟩
  · intro d e h
    unfold formatDateForQuery
    rw [h]
    rfl
  · intro d h
    constructor
    · unfold formatDateForQuery
      rw [h]
      rfl
    · unfold formatDateForQuery
      rw [h]
      rfl

/-- Witness for C3 at the spec's own examples. -/
theorem C3_witness :
    formatDateForQuery "2024-06-30T12:00:00Z" false =
      quoteMark ++ "2024-06-30T12:00:00Z" ++ quoteMark
    ∧ formatDateForQuery "2024-01-01" false =
      quoteMark ++ "2024-01-01" ++ "T" ++ "00:00:00Z" ++ quoteMark :=
  ⟨C3_formatDateForQuery.1 "2024-06-30T12:00:00Z" false (by decide),
   (C3_formatDateForQuery.2.1 "2024-01-01" (by decide)).1⟩

/-- C4: `query` orders by transaction date descending tie-broken by ID
descending exactly when the entity is one of the ten transaction-like
types, and by ID descending only for every other entity. -/
theorem C4_orderBy : ∀ entity : String,
    (orderBy entity = "ORDER BY TxnDate DESC, Id DESC" ↔ entity ∈ transactionEntities)
    ∧ (entity ∉ transactionEntities → orderBy entity = "ORDER BY Id DESC") := by
  intro entity
  by_cases h : entity ∈ transactionEntities
  · have hc : transactionEntities.contains entity = true := List.elem_iff.mpr h
    have hA : orderBy entity = "ORDER BY TxnDate DESC, Id DESC" := by
      unfold orderBy
      rw [hc]
      rfl
    exact ⟨⟨fun _ => h, fun _ => hA⟩, fun hnot => absurd h hnot⟩
  · have hc : transactionEntities.contains entity = false := by
      by_contra hcc
      rw [Bool.not_eq_false] at hcc
      exact h (List.elem_iff.mp hcc)
    have hB : orderBy entity = "ORDER BY Id DESC" := by
      unfold orderBy
      rw [hc]
      rfl
    have hne : ("ORDER BY Id DESC" : String) ≠ "ORDER BY TxnDate DESC, Id DESC" := by decide
    exact ⟨⟨fun heq => absurd (hB.symm.trans heq) hne, fun hmem => absurd hmem h⟩,
      fun _ => hB⟩

/-- Witness for C4 at a transaction-like and a non-transaction entity. -/
theorem C4_witness :
    orderBy "Invoice" = "ORDER BY TxnDate DESC, Id DESC"
    ∧ orderBy "Customer" = "ORDER BY Id DESC" :=
  ⟨(C4_orderBy "Invoice").1.mpr (by decide), (C4_orderBy "Customer").2 (by decide)⟩

/-- C6: every remote call of the token refresh, the paginated query and
the point lookup converts a non-success HTTP status into an error whose
message carries the status code, the status text and the raw response
body, and the operation stops there: the query loop's request count is
the failing request itself and no further request is issued (the
top-level `query` fails after exactly 1 request when the first page
fails). -/
theorem C6_failureContract :
    (∀ (c : QBCredentials) (resp : TokenResponse) (now : Int), resp.ok = false →
      refreshAccessToken c resp now =
        (Except.error ("Token refresh failed: " ++ toString resp.status ++ " " ++
          resp.statusText ++ "\n" ++ resp.errorText), []))
    ∧ (∀ (α : Type) (remote : Nat → PageResp α) (maxResults : Int) (fuel startPosition : Nat)
        (acc : List α) (reqs : Nat), (remote startPosition).ok = false →
        queryLoop remote maxResults (fuel + 1) startPosition acc reqs =
          QueryOutcome.err ("QuickBooks API error: " ++ toString (remote startPosition).status ++
            " " ++ (remote startPosition).statusText ++ "\n" ++ (remote startPosition).body)
            (reqs + 1))
    ∧ (∀ (α : Type) (remote : Nat → PageResp α) (maxResults : Int) (fuel : Nat),
        (remote 1).ok = false →
        query remote maxResults (fuel + 1) =
          QueryOutcome.err ("QuickBooks API error: " ++ toString (remote 1).status ++ " " ++
            (remote 1).statusText ++ "\n" ++ (remote 1).body) 1)
    ∧ (∀ resp : EntityResp, resp.ok = false →
        getById resp = Except.error ("QuickBooks API error: " ++ toString resp.status ++ " " ++
          resp.statusText ++ "\n" ++ resp.body)) := by
  refine ⟨?_, ?_, ?_, ?_⟩
  · intro c resp now h
    rw [refreshAccessToken_httpError c resp now h]
    rfl
  · intro α remote maxResults fuel startPosition acc reqs h
    rw [queryLoop_succ, if_pos h]
    rfl
  · intro α remote maxResults fuel h
    unfold query
    rw [queryLoop_succ, if_pos h]
    rfl
  · intro resp h
    unfold getById
    rw [if_pos h]
    rfl

/-- Witness for C6 at a simulated 401 on the entity-by-ID endpoint. -/
theorem C6_witness :
    getById wResp401 = Except.error ("QuickBooks API error: " ++ toString wResp401.status ++
      " " ++ wResp401.statusText ++ "\n" ++ wResp401.body) :=
  C6_failureContract.2.2.2 wResp401 rfl

/-- C9: `checkConnection` never raises: it is a total function into the
structured `ConnectionResult`; every failure of token acquisition or of
the profile fetch (a thrown error or a non-success status) yields
`connected = false` with an error description, and success yields
`connected = true` with the response's company info and the realm id. -/
theorem C9_checkConnection : ∀ (token : Except String (String × String))
    (profile : Except String ProfileResp),
    ((checkConnection token profile).connected = false →
      (checkConnection token profile).error.isSome = true)
    ∧ ((checkConnection token profile).connected = true →
      ∃ a rid resp2, token = Except.ok (a, rid) ∧ profile = Except.ok resp2 ∧
        resp2.ok = true ∧
        checkConnection token profile = ⟨true, resp2.companyInfo, some rid, none⟩)
    ∧ (∀ e, token = Except.error e →
        checkConnection token profile = ⟨false, none, none, some e⟩)
    ∧ (∀ a rid e, token = Except.ok (a, rid) → profile = Except.error e →
        checkConnection token profile = ⟨false, none, none, some e⟩)
    ∧ (∀ a rid resp2, token = Except.ok (a, rid) → profile = Except.ok resp2 →
        resp2.ok = false →
        checkConnection token profile = ⟨false, none, none,
          some ("API error: " ++ toString resp2.status ++ " " ++ resp2.statusText ++
            "\n" ++ resp2.body)⟩) := by
  intro token profile
  rcases token with e | ⟨a, rid⟩
  · refine ⟨fun _ => rfl, ?_, ?_, ?_, ?_⟩
    · intro h
      cases h
    · intro e0 he
      cases he
      rfl
    · intro a rid e0 he
      cases he
    · intro a rid resp2 he
      cases he
  · rcases profile with e2 | resp2
    · refine ⟨fun _ => rfl, ?_, ?_, ?_, ?_⟩
      · intro h
        cases h
      · intro e0 he
        cases he
      · intro a0 rid0 e0 he hp
        cases he
        cases hp
        rfl
      · intro a0 rid0 resp0 _ hp
        cases hp
    · rcases hok : resp2.ok with _ | _
      · have hstep : checkConnection (Except.ok (a, rid)) (Except.ok resp2) =
            if resp2.ok = false then
              ⟨false, none, none,
               some ("API error: " ++ toString resp2.status ++ " " ++ resp2.statusText ++
                 "\n" ++ resp2.body)⟩
            else ⟨true, resp2.companyInfo, some rid, none⟩ := rfl
        have hres : checkConnection (Except.ok (a, rid)) (Except.ok resp2) =
            ⟨false, none, none,
             some ("API error: " ++ toString resp2.status ++ " " ++ resp2.statusText ++
               "\n" ++ resp2.body)⟩ := by
          rw [hstep, if_pos hok]
        refine ⟨fun _ => by rw [hres]; rfl, ?_, ?_, ?_, ?_⟩
        · intro h
          rw [hres] at h
          cases h
        · intro e0 he
          cases he
        · intro a0 rid0 e0 _ hp
          cases hp
        · intro a0 rid0 resp0 he hp _
          cases he
          cases hp
          exact hres
      · have hstep : checkConnection (Except.ok (a, rid)) (Except.ok resp2) =
            if resp2.ok = false then
              ⟨false, none, none,
               some ("API error: " ++ toString resp2.status ++ " " ++ resp2.statusText ++
                 "\n" ++ resp2.body)⟩
            else ⟨true, resp2.companyInfo, some rid, none⟩ := rfl
        have hres : checkConnection (Except.ok (a, rid)) (Except.ok resp2) =
            ⟨true, resp2.companyInfo, some rid, none⟩ := by
          rw [hstep, if_neg (by simp [hok])]
        refine ⟨?_, ?_, ?_, ?_, ?_⟩
        · intro h
          rw [hres] at h
          cases h
        · intro _
          exact ⟨a, rid, resp2, rfl, rfl, hok, hres⟩
        · intro e0 he
          cases he
        · intro a0 rid0 e0 _ hp
          cases hp
        · intro a0 rid0 resp0 he hp hfalse
          cases he
          cases hp
          rw [hfalse] at hok
          cases hok

/-- Witness for C9: a thrown token error is captured. -/
theorem C9_witness :
    checkConnection (Except.error "boom") (Except.ok wProfile) =
      ⟨false, none, none, some "boom"⟩ :=
  (C9_checkConnection (Except.error "boom") (Except.ok wProfile)).2.2.1 "boom" rfl

/-- C1: with a truthy cached access token whose expiry is more than
5 minutes past `now`, `getValidAccessToken` returns the cached token and
the unchanged realm id with zero refresh (network) calls; when the token
or expiry is absent, the token is empty, or the expiry is within
5 minutes or past, it makes exactly one refresh call, and when that
exchange succeeds it returns the refreshed token with the unchanged
realm id and persists the updated record. -/
theorem C1_getValidAccessToken : ∀ (c : QBCredentials) (resp : TokenResponse) (now : Int),
    (∀ tok expiry, c.access_token = some tok → tok ≠ "" → c.token_expiry = some expiry →
      expiry - now > 5 * 60 * 1000 →
      getValidAccessToken c resp now = ⟨Except.ok (tok, c.realm_id), 0, []⟩)
    ∧ ((c.access_token = none ∨ c.access_token = some "" ∨ c.token_expiry = none ∨
        (∃ expiry, c.token_expiry = some expiry ∧ expiry - now ≤ 5 * 60 * 1000)) →
      (getValidAccessToken c resp now).refreshCalls = 1
      ∧ ∀ tok, resp.ok = true → resp.access_token = some tok → tok ≠ "" →
          getValidAccessToken c resp now =
            ⟨Except.ok (tok, c.realm_id), 1, [updatedCredentials c resp now tok]⟩) := by
  intro c resp now
  constructor
  · intro tok expiry ha hne he hgap
    rcases c with ⟨ci, cs, rid, atok, rt, te⟩
    obtain rfl : atok = some tok := ha
    obtain rfl : te = some expiry := he
    rw [getValidAccessToken_mk_some_some, if_pos ⟨hne, hgap⟩]
  · intro hcase
    rcases c with ⟨ci, cs, rid, atok, rt, te⟩
    have hgoto : getValidAccessToken ⟨ci, cs, rid, atok, rt, te⟩ resp now =
        refreshAndReturn ⟨ci, cs, rid, atok, rt, te⟩ resp now := by
      rcases hcase with h | h | h | ⟨expiry, he, hle⟩
      · obtain rfl : atok = none := h
        rfl
      · obtain rfl : atok = some "" := h
        rcases te with _ | e2
        · rfl
        · rw [getValidAccessToken_mk_some_some, if_neg (fun hh => hh.1 rfl)]
      · obtain rfl : te = none := h
        rcases atok with _ | t
        · rfl
        · rfl
      · obtain rfl : te = some expiry := he
        rcases atok with _ | t
        · rfl
        · rw [getValidAccessToken_mk_some_some,
            if_neg (fun hh => by have h2 := hh.2; omega)]
    refine ⟨?_, ?_⟩
    · rw [hgoto]
      exact refreshAndReturn_refreshCalls _ resp now
    · intro tok hok hat hne
      rw [hgoto]
      exact refreshAndReturn_ok _ resp now tok hok hat hne

/-- Witness for C1: the hot path at a far-future expiry, and the refresh
path at a record with no cached token. -/
theorem C1_witness :
    getValidAccessToken wCredsHot wRespOK 0 = ⟨Except.ok ("tokA", "realm"), 0, []⟩
    ∧ getValidAccessToken wCredsCold wRespOK 0 =
        ⟨Except.ok ("newTok", "realm"), 1, [updatedCredentials wCredsCold wRespOK 0 "newTok"]⟩ :=
  ⟨(C1_getValidAccessToken wCredsHot wRespOK 0).1 "tokA" 10000000 rfl (by decide) rfl (by decide),
   ((C1_getValidAccessToken wCredsCold wRespOK 0).2 (Or.inl rfl)).2 "newTok" rfl rfl (by decide)⟩

/-- C5 counterexample: with the server reporting `expires_in: 0`, the
code computes `token_expiry = now + 3600s`, not `now + 0s` as the claim
universally states (JavaScript `data.expires_in || 3600` treats 0 as
absent). -/
theorem C5_counterexample :
    (refreshAccessToken wCredsCold cexResp 0).1 =
      Except.ok (updatedCredentials wCredsCold cexResp 0 "atok")
    ∧ (updatedCredentials wCredsCold cexResp 0 "atok").token_expiry = some 3600000
    ∧ some ((3600000 : Int)) ≠ some ((0 : Int) + 0 * 1000) :=
  ⟨rfl, rfl, by decide⟩

/-- C5 (amended): on a successful token response carrying a non-empty
access token, refresh persists the updated full record via save and
returns exactly that record; its `token_expiry` is `now` plus the
server-reported `expires_in` seconds when that value is present and
non-zero, and `now + 3600` seconds when it is absent or zero; its
`refresh_token` is replaced only when the response supplies a non-empty
one; and all other fields are unchanged. -/
theorem C5_refreshComputesExpiryAndPersists :
    ∀ (c : QBCredentials) (resp : TokenResponse) (now : Int) (tok : String),
    resp.ok = true → resp.access_token = some tok → tok ≠ "" →
    refreshAccessToken c resp now =
      (Except.ok (updatedCredentials c resp now tok), [updatedCredentials c resp now tok])
    ∧ (updatedCredentials c resp now tok).access_token = some tok
    ∧ (∀ e : Int, resp.expires_in = some e → e ≠ 0 →
        (updatedCredentials c resp now tok).token_expiry = some (now + e * 1000))
    ∧ ((resp.expires_in = none ∨ resp.expires_in = some 0) →
        (updatedCredentials c resp now tok).token_expiry = some (now + 3600 * 1000))
    ∧ (∀ r, resp.refresh_token = some r → r ≠ "" →
        (updatedCredentials c resp now tok).refresh_token = r)
    ∧ ((resp.refresh_token = none ∨ resp.refresh_token = some "") →
        (updatedCredentials c resp now tok).refresh_token = c.refresh_token)
    ∧ (updatedCredentials c resp now tok).client_id = c.client_id
    ∧ (updatedCredentials c resp now tok).client_secret = c.client_secret
    ∧ (updatedCredentials c resp now tok).realm_id = c.realm_id := by
  intro c resp now tok hok hat hne
  refine ⟨refreshAccessToken_ok c resp now tok hok hat hne, rfl, ?_, ?_, ?_, ?_, rfl, rfl, rfl⟩
  · intro e he hz
    show some (now + jsOrInt resp.expires_in 3600 * 1000) = _
    rw [he]
    simp [jsOrInt, hz]
  · intro h
    show some (now + jsOrInt resp.expires_in 3600 * 1000) = _
    rcases h with h | h <;> rw [h] <;> simp [jsOrInt]
  · intro r hr hrne
    show jsOrStr resp.refresh_token c.refresh_token = r
    rw [hr]
    simp [jsOrStr, hrne]
  · intro h
    show jsOrStr resp.refresh_token c.refresh_token = c.refresh_token
    rcases h with h | h <;> rw [h] <;> simp [jsOrStr]

/-- Witness for C5 (amended) at a response reporting `expires_in: 1800`
and a rotated refresh token. -/
theorem C5_witness :
    refreshAccessToken wCredsCold wRespRotate 5 =
      (Except.ok (updatedCredentials wCredsCold wRespRotate 5 "newTok"),
       [updatedCredentials wCredsCold wRespRotate 5 "newTok"])
    ∧ (updatedCredentials wCredsCold wRespRotate 5 "newTok").token_expiry =
        some (5 + 1800 * 1000)
    ∧ (updatedCredentials wCredsCold wRespRotate 5 "newTok").refresh_token = "rt2" := by
  have h := C5_refreshComputesExpiryAndPersists wCredsCold wRespRotate 5 "newTok"
    rfl rfl (by decide)
  exact ⟨h.1, h.2.2.1 1800 rfl (by decide), h.2.2.2.2.1 "rt2" rfl (by decide)⟩

/-- C7: on a record whose optional fields are both present or both
absent and whose four required fields are non-empty, `saveCredentials`
persists it unchanged, and every record `refreshAccessToken` returns or
persists again satisfies both invariants. -/
theorem C7_credentialInvariant : ∀ (c : QBCredentials) (resp : TokenResponse) (now : Int),
    credInvariant c → requiredPresent c →
    (credInvariant (saveCredentials c) ∧ requiredPresent (saveCredentials c))
    ∧ (∀ c2, (refreshAccessToken c resp now).1 = Except.ok c2 →
        credInvariant c2 ∧ requiredPresent c2)
    ∧ (∀ s, s ∈ (refreshAccessToken c resp now).2 →
        credInvariant s ∧ requiredPresent s) := by
  intro c resp now hinv hreq
  have hupd : ∀ tok, tok ≠ "" →
      credInvariant (updatedCredentials c resp now tok)
      ∧ requiredPresent (updatedCredentials c resp now tok) := by
    intro tok hne
    constructor
    · left
      exact ⟨rfl, rfl⟩
    · exact ⟨hreq.1, hreq.2.1, hreq.2.2.1, jsOrStr_ne _ _ hreq.2.2.2⟩
  refine ⟨⟨hinv, hreq⟩, ?_, ?_⟩
  · intro c2 h
    obtain ⟨tok, _, _, hne, rfl⟩ := refreshAccessToken_ok_inv c resp now c2 h
    exact hupd tok hne
  · intro s h
    obtain ⟨tok, _, _, hne, rfl⟩ := refreshAccessToken_saved_inv c resp now s h
    exact hupd tok hne

/-- Witness for C7: the record refreshed from an empty cache satisfies
both invariants. -/
theorem C7_witness :
    credInvariant (updatedCredentials wCredsCold wRespOK 0 "newTok")
    ∧ requiredPresent (updatedCredentials wCredsCold wRespOK 0 "newTok") :=
  (C7_credentialInvariant wCredsCold wRespOK 0 (Or.inr ⟨rfl, rfl⟩)
      ⟨by decide, by decide, by decide, by decide⟩).2.1
    (updatedCredentials wCredsCold wRespOK 0 "newTok") rfl

theorem getReferenceMapsLoop_succ (remote : Nat → PageResp RefRecord)
    (fuel startPosition : Nat) (refMap : List (String × String)) (scanned : List RefRecord) :
    getReferenceMapsLoop remote (fuel + 1) startPosition refMap scanned =
      if (remote startPosition).ok = false then
        RefsOutcome.err
          (apiErrorMsg (remote startPosition).status (remote startPosition).statusText
            (remote startPosition).body)
      else if (remote startPosition).results.length = 0 then
        RefsOutcome.ok refMap scanned
      else if (remote startPosition).results.length < MAX_RESULTS_PER_PAGE then
        RefsOutcome.ok (addRefs refMap (remote startPosition).results)
          (scanned ++ (remote startPosition).results)
      else
        getReferenceMapsLoop remote fuel
          (startPosition + (remote startPosition).results.length)
          (addRefs refMap (remote startPosition).results)
          (scanned ++ (remote startPosition).results) := rfl

/-- C2: with `maxResults = 1000` and a remote serving pages of sizes
1000, 1000, 400 the engine issues exactly 3 requests and returns the
2400 concatenated records in order; with three full pages it issues a
4th request that returns 0 records before terminating with the 3000
records; and in general each iteration of the loop stops exactly when
the page is shorter than `maxResults` (returning the appended records)
and otherwise appends the page and advances the offset by the count
actually returned. -/
theorem C2_queryPagination : ∀ (α : Type) (p1 p2 p3 q3 : List α),
    p1.length = 1000 → p2.length = 1000 → p3.length = 400 → q3.length = 1000 →
    (query (mkRemote3 p1 p2 p3) 1000 3 = QueryOutcome.ok (p1 ++ p2 ++ p3) 3
      ∧ (p1 ++ p2 ++ p3).length = 2400)
    ∧ (query (mkRemote3 p1 p2 q3) 1000 4 = QueryOutcome.ok (p1 ++ p2 ++ q3) 4
      ∧ (p1 ++ p2 ++ q3).length = 3000)
    ∧ (∀ (remote : Nat → PageResp α) (maxResults : Int) (fuel startPosition : Nat)
        (acc : List α) (reqs : Nat), (remote startPosition).ok = true →
        ((remote startPosition).results.length : Int) < maxResults →
        queryLoop remote maxResults (fuel + 1) startPosition acc reqs =
          QueryOutcome.ok (acc ++ (remote startPosition).results) (reqs + 1))
    ∧ (∀ (remote : Nat → PageResp α) (maxResults : Int) (fuel startPosition : Nat)
        (acc : List α) (reqs : Nat), (remote startPosition).ok = true →
        ¬ (((remote startPosition).results.length : Int) < maxResults) →
        queryLoop remote maxResults (fuel + 1) startPosition acc reqs =
          queryLoop remote maxResults fuel
            (startPosition + (remote startPosition).results.length)
            (acc ++ (remote startPosition).results) (reqs + 1)) := by
  intro α p1 p2 p3 q3 h1 h2 h3 h4
  have s4 : (4 : Nat) = 3 + 1 := rfl
  have s3 : (3 : Nat) = 2 + 1 := rfl
  have s2 : (2 : Nat) = 1 + 1 := rfl
  have s1 : (1 : Nat) = 0 + 1 := rfl
  refine ⟨⟨?_, ?_⟩, ⟨?_, ?_⟩, ?_, ?_⟩
  · have r1 : mkRemote3 p1 p2 p3 1 = okPage p1 := rfl
    have r2 : mkRemote3 p1 p2 p3 1001 = okPage p2 := rfl
    have r3 : mkRemote3 p1 p2 p3 2001 = okPage p3 := rfl
    have step1 : queryLoop (mkRemote3 p1 p2 p3) 1000 3 1 [] 0 =
        queryLoop (mkRemote3 p1 p2 p3) 1000 2 1001 p1 1 := by
      rw [s3, queryLoop_ok_step _ _ _ _ _ _ (by simp [r1, okPage]) (by rw [r1]; simp [okPage, h1])]
      rw [r1]; simp only [okPage]; rw [h1]; try norm_num
    have step2 : queryLoop (mkRemote3 p1 p2 p3) 1000 2 1001 p1 1 =
        queryLoop (mkRemote3 p1 p2 p3) 1000 1 2001 (p1 ++ p2) 2 := by
      rw [s2, queryLoop_ok_step _ _ _ _ _ _ (by simp [r2, okPage]) (by rw [r2]; simp [okPage, h2])]
      rw [r2]; simp only [okPage]; rw [h2]; try norm_num
    have step3 : queryLoop (mkRemote3 p1 p2 p3) 1000 1 2001 (p1 ++ p2) 2 =
        QueryOutcome.ok (p1 ++ p2 ++ p3) 3 := by
      rw [s1, queryLoop_stop_step _ _ _ _ _ _ (by simp [r3, okPage])
        (by rw [r3]; simp only [okPage]; rw [h3]; norm_num)]
      rw [r3]; simp only [okPage]
    rw [query, step1, step2, step3]
  · simp [h1, h2, h3]
  · have r1 : mkRemote3 p1 p2 q3 1 = okPage p1 := rfl
    have r2 : mkRemote3 p1 p2 q3 1001 = okPage p2 := rfl
    have r3 : mkRemote3 p1 p2 q3 2001 = okPage q3 := rfl
    have r4 : mkRemote3 p1 p2 q3 3001 = okPage [] := rfl
    have step1 : queryLoop (mkRemote3 p1 p2 q3) 1000 4 1 [] 0 =
        queryLoop (mkRemote3 p1 p2 q3) 1000 3 1001 p1 1 := by
      rw [s4, queryLoop_ok_step _ _ _ _ _ _ (by simp [r1, okPage]) (by rw [r1]; simp [okPage, h1])]
      rw [r1]; simp only [okPage]; rw [h1]; try norm_num
    have step2 : queryLoop (mkRemote3 p1 p2 q3) 1000 3 1001 p1 1 =
        queryLoop (mkRemote3 p1 p2 q3) 1000 2 2001 (p1 ++ p2) 2 := by
      rw [s3, queryLoop_ok_step _ _ _ _ _ _ (by simp [r2, okPage]) (by rw [r2]; simp [okPage, h2])]
      rw [r2]; simp only [okPage]; rw [h2]; try norm_num
    have step3 : queryLoop (mkRemote3 p1 p2 q3) 1000 2 2001 (p1 ++ p2) 2 =
        queryLoop (mkRemote3 p1 p2 q3) 1000 1 3001 (p1 ++ p2 ++ q3) 3 := by
      rw [s2, queryLoop_ok_step _ _ _ _ _ _ (by simp [r3, okPage]) (by rw [r3]; simp [okPage, h4])]
      rw [r3]; simp only [okPage]; rw [h4]; try norm_num
    have step4 : queryLoop (mkRemote3 p1 p2 q3) 1000 1 3001 (p1 ++ p2 ++ q3) 3 =
        QueryOutcome.ok (p1 ++ p2 ++ q3) 4 := by
      rw [s1, queryLoop_stop_step _ _ _ _ _ _ (by simp [r4, okPage])
        (by rw [r4]; simp only [okPage]; norm_num)]
      rw [r4]; simp only [okPage]
      simp
    rw [query, step1, step2, step3, step4]
  · simp [h1, h2, h4]
  · intro remote maxResults fuel startPosition acc reqs hok hshort
    exact queryLoop_stop_step remote maxResults fuel startPosition acc reqs hok hshort
  · intro remote maxResults fuel startPosition acc reqs hok hlong
    exact queryLoop_ok_step remote maxResults fuel startPosition acc reqs hok hlong

/-- Witness for C2 at concrete pages of unit records. -/
theorem C2_witness :
    query (mkRemote3 wPageFull wPageFull wPageShort) 1000 3 =
      QueryOutcome.ok (wPageFull ++ wPageFull ++ wPageShort) 3
    ∧ query (mkRemote3 wPageFull wPageFull wPageFull) 1000 4 =
      QueryOutcome.ok (wPageFull ++ wPageFull ++ wPageFull) 4 := by
  have hf : wPageFull.length = 1000 := by
    unfold wPageFull
    exact List.length_replicate 1000 ()
  have hs : wPageShort.length = 400 := by
    unfold wPageShort
    exact List.length_replicate 400 ()
  have h := C2_queryPagination Unit wPageFull wPageFull wPageShort wPageFull hf hf hs hf
  exact ⟨h.1.1, h.2.1.1⟩

/-- C8: whenever `getReferenceMaps` completes, its map has at most one
entry per record scanned (size is bounded by the records scanned), every
scanned record with a truthy ID and display name has its ID as a key of
the map, every entry of the map comes from such a record (records
missing either field are omitted), and the loop stops on an empty or
short page. -/
theorem C8_getReferenceMaps :
    (∀ (remote : Nat → PageResp RefRecord) (fuel : Nat) (m : List (String × String))
      (sc : List RefRecord), getReferenceMaps remote fuel = RefsOutcome.ok m sc →
      m.length ≤ sc.length
      ∧ (∀ r, r ∈ sc → ∀ i n, r.Id = some i → i ≠ "" →
          r.FullyQualifiedName = some n → n ≠ "" → hasKey m i = true)
      ∧ (∀ k v, (k, v) ∈ m → ∃ r, r ∈ sc ∧ r.Id = some k ∧
          r.FullyQualifiedName = some v ∧ k ≠ "" ∧ v ≠ ""))
    ∧ (∀ (remote : Nat → PageResp RefRecord) (fuel startPosition : Nat)
        (m0 : List (String × String)) (sc0 : List RefRecord),
        (remote startPosition).ok = true →
        (remote startPosition).results.length < MAX_RESULTS_PER_PAGE →
        getReferenceMapsLoop remote (fuel + 1) startPosition m0 sc0 =
          RefsOutcome.ok (addRefs m0 (remote startPosition).results)
            (sc0 ++ (remote startPosition).results)) := by
  constructor
  · intro remote fuel m sc h
    obtain ⟨hlen, _, _, hscan, hprov⟩ := refsLoop_invariant remote fuel 1 [] [] m sc h
    refine ⟨by simpa using hlen, ?_, ?_⟩
    · intro r hr i n hi hi2 hn hn2
      rcases hscan r hr with h0 | hk
      · cases h0
      · exact hk i n hi hi2 hn hn2
    · intro k v hm
      rcases hprov (k, v) hm with h0 | ⟨r, hr, hfields⟩
      · cases h0
      · exact ⟨r, hr, hfields⟩
  · intro remote fuel startPosition m0 sc0 hok hshort
    rw [getReferenceMapsLoop_succ, if_neg (by simp [hok])]
    by_cases hzero : (remote startPosition).results.length = 0
    · rw [if_pos hzero]
      have hnil := List.length_eq_zero.mp hzero
      rw [hnil]
      simp [addRefs]
    · rw [if_neg hzero, if_pos hshort]

/-- Witness for C8 at a single short page with one malformed record. -/
theorem C8_witness :
    ([("1", "A")] : List (String × String)).length ≤
      ([⟨some "1", some "A"⟩, ⟨none, some "B"⟩] : List RefRecord).length
    ∧ hasKey [("1", "A")] "1" = true := by
  have h := C8_getReferenceMaps.1 wRefRemote 2 [("1", "A")]
    [⟨some "1", some "A"⟩, ⟨none, some "B"⟩] (by decide)
  exact ⟨h.1, h.2.1 ⟨some "1", some "A"⟩ (List.mem_cons_self _ _) "1" "A" rfl (by decide)
    rfl (by decide)⟩

/-- C10: against a remote whose responses all succeed, the pagination
loop can only exit through the short-page test, so for `maxResults ≤ 0`
(reachable from the CLI via an unvalidated `--max`) the test
`results.length < maxResults` never holds and the loop never terminates
(every fuel bound is exhausted); for `maxResults ≥ 1` the loop returns
as soon as the current page is short, and on a remote with finitely many
records it terminates. -/
theorem C10_maxResultsTermination : ∀ (α : Type) (remote : Nat → PageResp α)
    (maxResults : Int), (∀ p, (remote p).ok = true) →
    ((maxResults ≤ 0 → ∀ fuel startPosition acc reqs,
        queryLoop remote maxResults fuel startPosition acc reqs = QueryOutcome.fuelOut)
    ∧ (1 ≤ maxResults →
        (∀ fuel startPosition acc reqs,
            ((remote startPosition).results.length : Int) < maxResults →
            queryLoop remote maxResults (fuel + 1) startPosition acc reqs =
              QueryOutcome.ok (acc ++ (remote startPosition).results) (reqs + 1))
        ∧ (∀ N, (∀ p, N ≤ p → (remote p).results = []) →
            ∀ startPosition acc reqs, ∃ records requests,
              queryLoop remote maxResults (N + 2) startPosition acc reqs =
                QueryOutcome.ok records requests))) := by
  intro α remote maxResults hok
  constructor
  · intro hm
    exact queryLoop_no_exit remote maxResults hok hm
  · intro hm
    constructor
    · intro fuel s a r hshort
      exact queryLoop_stop_step remote maxResults fuel s a r (hok s) hshort
    · intro N hN s a r
      exact queryLoop_terminates remote maxResults hok hm N hN (N + 2) s a r
        (by omega) (by omega)

/-- Witness for C10: with `maxResults = 0` fuel is always exhausted;
with `maxResults = 1` the loop terminates on the empty remote. -/
theorem C10_witness :
    queryLoop (fun _ => okPage ([] : List Unit)) 0 7 1 [] 0 = QueryOutcome.fuelOut
    ∧ ∃ records requests,
        queryLoop (fun _ => okPage ([] : List Unit)) 1 2 1 [] 0 =
          QueryOutcome.ok records requests := by
  have h := C10_maxResultsTermination Unit (fun _ => okPage []) 0 (fun _ => rfl)
  have h2 := C10_maxResultsTermination Unit (fun _ => okPage []) 1 (fun _ => rfl)
  exact ⟨h.1 (by decide) 7 1 [] 0, (h2.2 (by decide)).2 0 (fun p _ => rfl) 1 [] 0⟩

end QuickBooks
